import Mathlib

/-!
# Verification of the openclaw-riddledc orchestration plugin

Shallow embedding of `packages/openclaw-riddledc/src/index.ts`: the JSON-like
dynamic values the plugin manipulates, the artifact safety spooler
(`applySafetySpec`), mode detection (`detectMode`), the base-url guard
(`assertAllowedBaseUrl`), the poll loop (`pollJobStatus`) and the main
orchestration flow (`runWithDefaults`).

JavaScript dynamic values are modelled by the inductive `JVal`; absent object
properties (`undefined`) are modelled by `Option JVal` = `none`, and JSON
`null` by `JVal.null`.  File writes are modelled by a log of `FileWrite`
records (the write of a buffer to a path); byte sizes are the UTF-8 byte
length for text writes and the decoded base64 length for binary writes,
exactly as `Buffer.byteLength(s, "utf8")` / `Buffer.from(s, "base64")` do.
-/

namespace Riddle

/-- A JavaScript/JSON value as manipulated by the plugin. -/
inductive JVal where
  | null
  | bool (b : Bool)
  | num (n : Int)
  | str (s : String)
  | arr (xs : List JVal)
  | obj (fs : List (String × JVal))

/-- JavaScript truthiness: `null`/`undefined`, `false`, `0`, `""` are falsy;
arrays and objects are always truthy. -/
def truthy : JVal → Bool
  | .null => false
  | .bool b => b
  | .num n => n != 0
  | .str s => s != ""
  | .arr _ => true
  | .obj _ => true

/-- Truthiness of a possibly-absent value (absent = `undefined` = falsy). -/
def truthyO : Option JVal → Bool
  | none => false
  | some v => truthy v

/-- Property lookup on an object field list (first binding wins, as in a
JS object literal without duplicate keys). -/
def lookup (fs : List (String × JVal)) (k : String) : Option JVal :=
  (fs.find? (fun p => p.1 == k)).map (fun p => p.2)

/-- `v.k` property access: `undefined` unless `v` is an object with key `k`. -/
def jLookup (v : JVal) (k : String) : Option JVal :=
  match v with
  | .obj fs => lookup fs k
  | _ => none

/-- `v.k` when it is a string, else `none`. -/
def jGetStr (v : JVal) (k : String) : Option String :=
  match jLookup v k with
  | some (.str s) => some s
  | _ => none

/-- UTF-8 byte length of a string: models `Buffer.byteLength(s, "utf8")`. -/
def utf8Len (s : String) : Nat :=
  s.data.foldl (fun n c => n + c.utf8Size) 0

/-- Base64 alphabet characters (`A-Z a-z 0-9 + /`). -/
def isB64Char (c : Char) : Bool :=
  c.isAlphanum || c == '+' || c == '/'

/-- Number of bytes produced by Node's lenient `Buffer.from(s, "base64")`
decoder, which ignores characters outside the alphabet (including `=`
padding) and yields 3 bytes per 4 alphabet characters, rounding down. -/
def b64DecodedLen (s : String) : Nat :=
  (s.data.countP (fun c => isB64Char c = true)) * 3 / 4

/-- JSON string escaping for quotes, backslashes and the common control
characters, as `JSON.stringify` performs it. -/
def jsonEscape (c : Char) : String :=
  if c = '"' then "\\\""
  else if c = '\\' then "\\\\"
  else if c = '\n' then "\\n"
  else if c = '\r' then "\\r"
  else if c = '\t' then "\\t"
  else String.singleton c

/-- A JSON string literal: quotes around the escaped body. -/
def jsonQuote (s : String) : String :=
  "\"" ++ (s.data.foldl (fun acc c => acc ++ jsonEscape c) "") ++ "\""

mutual
/-- `JSON.stringify` on a `JVal` (strings escaped by `jsonQuote`). -/
def stringifyV : JVal → String
  | .null => "null"
  | .bool b => if b then "true" else "false"
  | .num n => toString n
  | .str s => jsonQuote s
  | .arr xs => "[" ++ stringifyArr xs ++ "]"
  | .obj fs => "\x7b" ++ stringifyObj fs ++ "\x7d"

def stringifyArr : List JVal → String
  | [] => ""
  | [x] => stringifyV x
  | x :: y :: xs => stringifyV x ++ "," ++ stringifyArr (y :: xs)

def stringifyObj : List (String × JVal) → String
  | [] => ""
  | [(k, v)] => jsonQuote k ++ ":" ++ stringifyV v
  | (k, v) :: m :: fs => jsonQuote k ++ ":" ++ stringifyV v ++ "," ++ stringifyObj (m :: fs)
end

mutual
/-- JavaScript string coercion (template-literal interpolation `${v}`):
strings stay, numbers/booleans/null print, arrays join their coerced
elements with commas, plain objects print `[object Object]`. -/
def jsToString : JVal → String
  | .null => "null"
  | .bool b => if b then "true" else "false"
  | .num n => toString n
  | .str s => s
  | .arr xs => jsToStringList xs
  | .obj _ => "[object Object]"

def jsToStringList : List JVal → String
  | [] => ""
  | [x] => jsToString x
  | x :: y :: xs => jsToString x ++ "," ++ jsToStringList (y :: xs)
end

/-- The inline size cap: `const INLINE_CAP = 50 * 1024`. -/
def INLINE_CAP : Nat := 50 * 1024

/-- The caller-facing run result record (`RunResult` in the source).  `ok`
is a raw `JVal` since `Object.assign` may overwrite it with arbitrary JSON;
the code itself only ever stores booleans there. -/
structure RunResult where
  ok : JVal := .bool true
  mode : Option JVal := none
  sync : Option JVal := none
  job_id : Option JVal := none
  duration_ms : Option JVal := none
  status : Option JVal := none
  screenshot : Option JVal := none
  screenshots : Option JVal := none
  har : Option JVal := none
  console : Option JVal := none
  result : Option JVal := none
  error : Option JVal := none
  rawContentType : Option JVal := none
  rawPngBase64 : Option String := none
  timeout : Option JVal := none
  status_url : Option JVal := none

/-- One file written by the spooler: which subdirectory and file name
`writeArtifact`/`writeArtifactBinary` were called with, the joined path, and
the number of bytes of the buffer written. -/
structure FileWrite where
  subdir : String
  filename : String
  path : String
  bytes : Nat

/-- `join(workspace, "riddle", subdir)` followed by `join(dir, filename)`. -/
def joinPath (workspace subdir filename : String) : String :=
  workspace ++ "/riddle/" ++ subdir ++ "/" ++ filename

/-- `writeArtifactBinary`: decodes base64 content and writes the bytes;
returns the path and the written byte count. -/
def writeArtifactBinary (workspace subdir filename base64Content : String) : FileWrite :=
  ⟨subdir, filename, joinPath workspace subdir filename, b64DecodedLen base64Content⟩

/-- `writeArtifact`: writes UTF-8 text; returns the path and byte count. -/
def writeArtifact (workspace subdir filename content : String) : FileWrite :=
  ⟨subdir, filename, joinPath workspace subdir filename, utf8Len content⟩

/-- `as` begins `bs`? -/
def charsBegin : List Char → List Char → Bool
  | [], _ => true
  | _ :: _, [] => false
  | a :: as, b :: bs => a == b && charsBegin as bs

/-- `needle` occurs contiguously inside `hay`? -/
def charsInside (needle : List Char) : List Char → Bool
  | [] => charsBegin needle []
  | h :: t => charsBegin needle (h :: t) || charsInside needle t

/-- `s.replace(/^data:image\/\w+;base64,/, "")`: strips a data-URL prefix
when present (at least one word character between `data:image/` and
`;base64,`), otherwise returns the string unchanged. -/
def stripDataUrl (s : String) : String :=
  let cs := s.data
  if charsBegin "data:image/".data cs then
    let rest := cs.drop 11
    let w := rest.takeWhile (fun c => c.isAlphanum || c == '_')
    if w.length ≥ 1 && charsBegin ";base64,".data (rest.drop w.length) then
      String.mk ((rest.drop w.length).drop 8)
    else s
  else s

/-- The base64 payload the spooler extracts from a `screenshot` value:
a string is prefix-stripped; an object with a truthy string `data` property
has that stripped.  (An object whose `data` is truthy but not a string makes
the original throw from `.replace`; such values do not occur and are mapped
to `none` here.) -/
def screenshotData (v : JVal) : Option String :=
  match v with
  | .str s => some (stripDataUrl s)
  | .obj fs =>
    match lookup fs "data" with
    | some (.str d) => if d = "" then none else some (stripDataUrl d)
    | _ => none
  | _ => none

/-- The `url` property of an object value when truthy (the `cdnUrl`
retained by the spooler), else `none`. -/
def objUrl (v : JVal) : Option JVal :=
  match v with
  | .obj fs =>
    match lookup fs "url" with
    | some u => if truthy u then some u else none
    | none => none
  | _ => none

/-- The `{saved, sizeBytes, ...(url)}` replacement object. -/
def spooledRef (path : String) (n : Nat) (url : Option JVal) : JVal :=
  .obj ([("saved", .str path), ("sizeBytes", .num (n : Int))] ++
    (match url with | some u => [("url", u)] | none => []))

/-- Spooler step 1: the singular `screenshot` field.  A non-null value
whose extracted base64 payload is truthy is written to
`screenshots/<jobId>.png` and replaced by a `{saved, sizeBytes, url?}`
reference; anything else is left untouched. -/
def spoolScreenshot (workspace jobId : String) (r : RunResult) :
    RunResult × List FileWrite :=
  match r.screenshot with
  | some v =>
    match v with
    | .null => (r, [])
    | _ =>
      match screenshotData v with
      | some d =>
        if d = "" then (r, [])
        else
          let fw := writeArtifactBinary workspace "screenshots" (jobId ++ ".png") d
          ({ r with screenshot := some (spooledRef fw.path fw.bytes (objUrl v)) }, [fw])
      | none => (r, [])
  | none => (r, [])

/-- The base64 payload of one entry of the `screenshots` array: a
non-empty string is used as-is (no prefix stripping in this branch of the
source); an object with truthy string `data` has it stripped, and is
skipped if the stripped payload is empty. -/
def screenshotsItemData (v : JVal) : Option String :=
  match v with
  | .str s => if s = "" then none else some s
  | .obj fs =>
    match lookup fs "data" with
    | some (.str d) =>
      if d = "" then none
      else
        let d2 := stripDataUrl d
        if d2 = "" then none else some d2
    | _ => none
  | _ => none

/-- Spooler step 2 helper: iterate the `screenshots` array with its index;
entries with a truthy payload are written to `screenshots/<jobId>-<i>.png`
and contribute a `{saved, sizeBytes, url?}` reference to `savedRefs`;
entries without one are dropped. -/
def spoolScreenshotsGo (workspace jobId : String) :
    List JVal → Nat → List JVal × List FileWrite
  | [], _ => ([], [])
  | v :: rest, i =>
    let tail := spoolScreenshotsGo workspace jobId rest (i + 1)
    match screenshotsItemData v with
    | some d =>
      let fw := writeArtifactBinary workspace "screenshots"
        (jobId ++ "-" ++ toString i ++ ".png") d
      (spooledRef fw.path fw.bytes (objUrl v) :: tail.1, fw :: tail.2)
    | none => tail

/-- Spooler step 2: `Array.isArray(result.screenshots)` triggers the rebuild
of the array as the list of saved references (non-arrays pass through). -/
def spoolScreenshots (workspace jobId : String) (r : RunResult) :
    RunResult × List FileWrite :=
  match r.screenshots with
  | some (.arr xs) =>
    let out := spoolScreenshotsGo workspace jobId xs 0
    ({ r with screenshots := some (.arr out.1) }, out.2)
  | _ => (r, [])

/-- Spooler step 3: a present `rawPngBase64` is written to
`screenshots/<jobId>.png`, `screenshot` is replaced by `{saved, sizeBytes}`
and the raw field deleted. -/
def spoolRawPng (workspace jobId : String) (r : RunResult) :
    RunResult × List FileWrite :=
  match r.rawPngBase64 with
  | some s =>
    let fw := writeArtifactBinary workspace "screenshots" (jobId ++ ".png") s
    ({ r with
        screenshot := some (.obj [("saved", .str fw.path), ("sizeBytes", .num (fw.bytes : Int))]),
        rawPngBase64 := none }, [fw])
  | none => (r, [])

/-- The serialized HAR/console content: a string itself, anything else its
`JSON.stringify`. -/
def serialized (v : JVal) : String :=
  match v with
  | .str s => s
  | _ => stringifyV v

/-- Spooler step 4: the `har` field.  Kept as-is when inline was requested
and the UTF-8 size fits `INLINE_CAP`; otherwise written to
`har/<jobId>.har.json` and replaced by `{saved, sizeBytes}`, with a
`warning` exactly when an inline request was defeated by the cap. -/
def spoolHar (workspace : String) (harInline : Bool) (jobId : String) (r : RunResult) :
    RunResult × List FileWrite :=
  match r.har with
  | some v =>
    match v with
    | .null => (r, [])
    | _ =>
      let harStr := serialized v
      let harBytes := utf8Len harStr
      if harInline && harBytes ≤ INLINE_CAP then (r, [])
      else
        let fw := writeArtifact workspace "har" (jobId ++ ".har.json") harStr
        let newHar :=
          if harInline && harBytes > INLINE_CAP then
            JVal.obj [("saved", .str fw.path), ("sizeBytes", .num (fw.bytes : Int)),
              ("warning", .str "Exceeded 50KB inline cap; wrote to file")]
          else
            JVal.obj [("saved", .str fw.path), ("sizeBytes", .num (fw.bytes : Int))]
        ({ r with har := some newHar }, [fw])
  | none => (r, [])

/-- Spooler step 5: the `console` field.  Inline by default; only when the
serialized UTF-8 size exceeds `INLINE_CAP` is it written to
`console/<jobId>.log` and replaced by `{saved, sizeBytes}` (never with a
warning). -/
def spoolConsole (workspace jobId : String) (r : RunResult) :
    RunResult × List FileWrite :=
  match r.console with
  | some v =>
    match v with
    | .null => (r, [])
    | _ =>
      let consoleStr := serialized v
      let consoleBytes := utf8Len consoleStr
      if consoleBytes > INLINE_CAP then
        let fw := writeArtifact workspace "console" (jobId ++ ".log") consoleStr
        ({ r with console := some (.obj [("saved", .str fw.path), ("sizeBytes", .num (fw.bytes : Int))]) }, [fw])
      else (r, [])
  | none => (r, [])

/-- The job id used in spooled file names: `result.job_id ?? "unknown"`,
coerced to a string by template interpolation. -/
def spoolJobId (r : RunResult) : String :=
  match r.job_id with
  | none => "unknown"
  | some .null => "unknown"
  | some v => jsToString v

/-- Options of the spooler: the workspace directory and the caller's
explicit `harInline` request. -/
structure SpoolCtx where
  workspace : String
  harInline : Bool

/-- `applySafetySpec`: the pure transform the in-place mutation amounts to.
Runs the five steps in source order, accumulating the file writes. -/
def applySafetySpec (ctx : SpoolCtx) (r : RunResult) : RunResult × List FileWrite :=
  let jobId := spoolJobId r
  let s1 := spoolScreenshot ctx.workspace jobId r
  let s2 := spoolScreenshots ctx.workspace jobId s1.1
  let s3 := spoolRawPng ctx.workspace jobId s2.1
  let s4 := spoolHar ctx.workspace ctx.harInline jobId s3.1
  let s5 := spoolConsole ctx.workspace jobId s4.1
  (s5.1, s1.2 ++ s2.2 ++ s3.2 ++ s4.2 ++ s5.2)

/-! ## The run flow: guard, mode detection, polling, orchestration -/

/-- A base url, already parsed as `new URL(baseUrl)` parses it (an
unparseable url makes `new URL` itself throw before the guard's checks). -/
structure UrlParts where
  protocol : String
  hostname : String

/-- `assertAllowedBaseUrl`: throws unless the protocol is `https:` and the
hostname is exactly `api.riddledc.com`.  Modelled as `Except`; `.error` is
the thrown configuration error (its message interpolates the parsed parts
where the source interpolates the raw url string). -/
def assertAllowedBaseUrl (u : UrlParts) : Except String Unit :=
  if u.protocol ≠ "https:" then
    .error ("Riddle baseUrl must be https: (" ++ u.protocol ++ "//" ++ u.hostname ++ ")")
  else if u.hostname ≠ "api.riddledc.com" then
    .error ("Refusing to use non-official Riddle host: " ++ u.hostname)
  else
    .ok ()

/-- The caller payload fields `runWithDefaults` reads. -/
structure Payload where
  url : Option JVal := none
  urls : Option JVal := none
  steps : Option JVal := none
  script : Option JVal := none
  timeout_sec : Option Nat := none
  harInline : Option JVal := none

/-- `detectMode`: first truthy field in the order url, urls, steps, script. -/
def detectMode (payload : Payload) : Option String :=
  if truthyO payload.url then some "url"
  else if truthyO payload.urls then some "urls"
  else if truthyO payload.steps then some "steps"
  else if truthyO payload.script then some "script"
  else none

/-- One status-endpoint response inside the poll loop: either a non-2xx
HTTP failure or the parsed JSON body. -/
inductive PollResp where
  | httpErr (code : Nat)
  | json (v : JVal)

/-- The four terminal job statuses of the poll loop. -/
def terminalStatus (s : String) : Bool :=
  s == "completed" || s == "completed_timeout" || s == "completed_error" || s == "failed"

/-- The synthesized object the poll loop returns on expiry of its bound. -/
def pollTimeoutObj (jobId : String) (maxWaitMs : Nat) : JVal :=
  .obj [("status", .str "poll_timeout"),
    ("error", .str ("Job " ++ jobId ++ " did not complete within " ++ toString maxWaitMs ++ "ms"))]

/-- `pollJobStatus`: each list entry is one loop iteration — the elapsed
milliseconds `Date.now() - start` observed at the `while` check, and the
status-endpoint response of that iteration.  The loop sleeps 2 seconds per
iteration, so elapsed time grows without bound and the loop makes finitely
many iterations; list exhaustion therefore models the bound expiring.
A non-2xx response yields `poll_error` immediately; a body with a terminal
status is returned as-is; otherwise the loop continues. -/
def pollJobStatus (jobId : String) (maxWaitMs : Nat) :
    List (Nat × PollResp) → JVal
  | [] => pollTimeoutObj jobId maxWaitMs
  | (t, resp) :: rest =>
    if t < maxWaitMs then
      match resp with
      | .httpErr c => .obj [("status", .str "poll_error"), ("error", .str ("HTTP " ++ toString c))]
      | .json v =>
        match jGetStr v "status" with
        | some s => if terminalStatus s then v else pollJobStatus jobId maxWaitMs rest
        | none => pollJobStatus jobId maxWaitMs rest
    else pollTimeoutObj jobId maxWaitMs

/-- The submission response, as `postRun` returns it: HTTP status, the
content type, the body both as parsed JSON (`none` when the text is not
valid JSON) and as base64 of the raw bytes (used in the image branch), and
the `x-job-id` / `x-duration-ms` headers (the latter already converted by
`Number(...)`, `none` when absent or empty). -/
structure HttpResponse where
  status : Nat
  contentType : Option String := none
  bodyJson : Option JVal := none
  bodyB64 : String := ""
  headerJobId : Option String := none
  headerDuration : Option Int := none

/-- All inputs of one `runWithDefaults` invocation, with the observable
behaviour of the external world (submission response, poll responses,
artifact-fetch result) supplied as parameters. -/
structure RunInputs where
  hasApiKey : Bool := true
  baseUrl : UrlParts := ⟨"https:", "api.riddledc.com"⟩
  payload : Payload := {}
  returnAsync : Bool := false
  response : HttpResponse
  pollTrace : List (Nat × PollResp) := []
  artifacts : JVal := .obj []
  workspace : String := "ws"

/-- Which side effects the invocation performed: the `POST /v1/run`, the
poll loop, the artifacts fetch, and the safety spooler (with its writes). -/
structure Effects where
  posted : Bool := false
  polled : Bool := false
  fetched : Bool := false
  spooled : Bool := false
  writes : List FileWrite := []

/-- `Object.assign(out, j)` restricted to the result fields the record
models; keys the record does not model are dropped (the source only ever
reads `status_url`/`jobId` from the body itself, which the flow below does
directly).  Non-object values contribute no enumerable properties. -/
def setField (cur : Option JVal) (fs : List (String × JVal)) (k : String) : Option JVal :=
  match lookup fs k with
  | some v => some v
  | none => cur

def assignJson (r : RunResult) (j : JVal) : RunResult :=
  match j with
  | .obj fs =>
    { r with
      ok := (match lookup fs "ok" with | some v => v | none => r.ok),
      mode := setField r.mode fs "mode",
      sync := setField r.sync fs "sync",
      job_id := setField r.job_id fs "job_id",
      duration_ms := setField r.duration_ms fs "duration_ms",
      status := setField r.status fs "status",
      screenshot := setField r.screenshot fs "screenshot",
      screenshots := setField r.screenshots fs "screenshots",
      har := setField r.har fs "har",
      console := setField r.console fs "console",
      result := setField r.result fs "result",
      error := setField r.error fs "error",
      timeout := setField r.timeout fs "timeout",
      status_url := setField r.status_url fs "status_url" }
  | _ => r

/-- `a ?? b` on property values: `null`/`undefined` fall through. -/
def nullishAlt (a b : Option JVal) : Option JVal :=
  match a with
  | some .null => b
  | none => b
  | some v => some v

/-- The statuses that make the flow give up right after polling. -/
def pollFailStatus (jobStatus : JVal) : Option String :=
  match jGetStr jobStatus "status" with
  | some s =>
    if s == "poll_timeout" || s == "poll_error" || s == "failed" then some s else none
  | none => none

/-- `jobStatus.error || default` for the give-up branch. -/
def pollFailError (jobStatus : JVal) (s : String) : JVal :=
  match jLookup jobStatus "error" with
  | some e => if truthy e then e else .str ("Job " ++ s)
  | none => .str ("Job " ++ s)

/-- The shared continuation after a successful poll (the code duplicated
between the 408 and 202 branches of `runWithDefaults`): give up on
`poll_timeout`/`poll_error`/`failed`; otherwise fetch and merge artifacts,
record status and duration (the 408 branch also re-sets `job_id`), mark the
result not-ok on a non-`completed` terminal status, then run the spooler. -/
def afterPoll (inp : RunInputs) (harInline : Bool) (reassignJobId : Option JVal)
    (jobStatus : JVal) (out1 : RunResult) (eff : Effects) :
    Except String RunResult × Effects :=
  match pollFailStatus jobStatus with
  | some s =>
    (.ok { out1 with
             ok := JVal.bool false, status := some (.str s),
             error := some (pollFailError jobStatus s) }, eff)
  | none =>
    let out2 := assignJson out1 inp.artifacts
    let out3 := { out2 with
      job_id := (match reassignJobId with | some v => some v | none => out2.job_id),
      status := jLookup jobStatus "status",
      duration_ms := jLookup jobStatus "duration_ms" }
    let out4 :=
      match jGetStr jobStatus "status" with
      | some "completed" => out3
      | _ =>
        let a := { out3 with ok := JVal.bool false }
        let b := match jLookup jobStatus "timeout" with
          | some tv => if truthy tv then { a with timeout := some tv } else a
          | none => a
        match jLookup jobStatus "error" with
          | some ev => if truthy ev then { b with error := some ev } else b
          | none => b
    let sp := applySafetySpec ⟨inp.workspace, harInline⟩ out4
    (.ok sp.1, { eff with fetched := true, spooled := true, writes := sp.2 })

/-- The poll bound of one run: `(payload.timeout_sec ?? 60) * 1000 + 30000`. -/
def pollMax (p : Payload) : Nat :=
  p.timeout_sec.getD 60 * 1000 + 30000

/-- The job id a 408 body yields: `JSON.parse(body).job_id`, `none` when
the body is not JSON, the key is absent, or its value is falsy (the source
checks `if (!jobIdFrom408)`). -/
def jobIdOf408 (body : Option JVal) : Option JVal :=
  match body.bind (fun b => jLookup b "job_id") with
  | some v => if truthy v then some v else none
  | none => none

/-- `s.includes(sub)` on strings. -/
def jsIncludes (s sub : String) : Bool :=
  charsInside sub.data s.data

/-- `contentType && contentType.includes("image/png")`. -/
def isImageCT : Option String → Bool
  | some ct => jsIncludes ct "image/png"
  | none => false

/-- `runWithDefaults`: the full orchestration flow.  Returns the structured
result (or `.error` for a propagated exception) together with the effects
performed.  The poll bound is `(payload.timeout_sec ?? 60) * 1000 + 30000`. -/
def runWithDefaults (inp : RunInputs) : Except String RunResult × Effects :=
  if !inp.hasApiKey then
    (.ok { ok := JVal.bool false,
           error := some (.str "Missing Riddle API key. Set RIDDLE_API_KEY env var or plugins.entries.riddle.config.apiKey.") }, {})
  else
    match assertAllowedBaseUrl inp.baseUrl with
    | .error e => (.error e, {})
    | .ok _ =>
      let mode := detectMode inp.payload
      let harInline := truthyO inp.payload.harInline
      let pollMaxMs := pollMax inp.payload
      let out0 : RunResult :=
        { ok := .bool true, mode := mode.map .str,
          rawContentType := inp.response.contentType.map .str }
      let eff0 : Effects := { posted := true }
      let st := inp.response.status
      if st = 408 then
        match jobIdOf408 inp.response.bodyJson with
        | none =>
          (.ok { out0 with
                   ok := JVal.bool false,
                   error := some (.str "Sync poll timed out but no job_id in 408 response") }, eff0)
        | some v =>
          let out1 := { out0 with job_id := some v }
          if inp.returnAsync then
            (.ok { out1 with status := some (.str "submitted") }, eff0)
          else
            let jobStatus := pollJobStatus (jsToString v) pollMaxMs inp.pollTrace
            afterPoll inp harInline (some v) jobStatus out1 { eff0 with polled := true }
      else if st ≥ 400 then
        match inp.response.bodyJson with
        | some j => (.ok { out0 with ok := .bool false, error := some j }, eff0)
        | none => (.ok { out0 with ok := .bool false, error := some (.str ("HTTP " ++ toString st)) }, eff0)
      else if isImageCT inp.response.contentType then
        let out1 := { out0 with
          rawPngBase64 := some inp.response.bodyB64,
          job_id := inp.response.headerJobId.map .str,
          duration_ms := inp.response.headerDuration.map (fun n => .num n),
          sync := some (.bool true) }
        let sp := applySafetySpec ⟨inp.workspace, harInline⟩ out1
        (.ok sp.1, { eff0 with spooled := true, writes := sp.2 })
      else
        match inp.response.bodyJson with
        | none => (.error "SyntaxError: JSON.parse on non-JSON body", eff0)
        | some json =>
          let outA := assignJson out0 json
          let outB := { outA with
            job_id := nullishAlt (jLookup json "job_id")
              (nullishAlt (jLookup json "jobId") outA.job_id) }
          if st = 202 && truthyO outB.job_id && truthyO (jLookup json "status_url") then
            if inp.returnAsync then
              (.ok { outB with status := some (.str "submitted") }, eff0)
            else
              let jobIdStr := match outB.job_id with | some v => jsToString v | none => ""
              let jobStatus := pollJobStatus jobIdStr pollMaxMs inp.pollTrace
              afterPoll inp harInline none jobStatus outB { eff0 with polled := true }
          else
            let outC :=
              match jGetStr json "status" with
              | some s =>
                if s = "completed_timeout" || s = "completed_error" then
                  { outB with ok := JVal.bool false }
                else outB
              | none => outB
            let sp := applySafetySpec ⟨inp.workspace, harInline⟩ outC
            (.ok sp.1, { eff0 with spooled := true, writes := sp.2 })

/-! ## Helper predicates used by the theorem statements -/

/-- `v != null` (the spooler's guard on each field). -/
def notNull : JVal → Bool
  | .null => false
  | _ => true

/-- The effective base64 payload the singular-`screenshot` step acts on;
`none` exactly when the step leaves the result untouched. -/
def singlePayload : Option JVal → Option String
  | none => none
  | some v =>
    if notNull v then
      match screenshotData v with
      | some d => if d = "" then none else some d
      | none => none
    else none

/-- `Array.isArray` on a possibly-absent value. -/
def isArrO : Option JVal → Bool
  | some (.arr _) => true
  | _ => false

/-- The condition under which the har step keeps the field untouched:
absent or `null`, or inline requested and within the cap. -/
def harKept (harInline : Bool) : Option JVal → Bool
  | none => true
  | some v =>
    if notNull v then harInline && utf8Len (serialized v) ≤ INLINE_CAP else true

/-- The condition under which the console step keeps the field untouched:
absent or `null`, or serialized size within the cap. -/
def consoleKept : Option JVal → Bool
  | none => true
  | some v => if notNull v then utf8Len (serialized v) ≤ INLINE_CAP else true

/-- The plain `{saved, sizeBytes}` reference object. -/
def savedRefPlain (path : String) (n : Nat) : JVal :=
  .obj [("saved", .str path), ("sizeBytes", .num (n : Int))]

/-- The `{saved, sizeBytes, warning}` reference object of a defeated
inline-har request. -/
def savedRefWarn (path : String) (n : Nat) : JVal :=
  .obj [("saved", .str path), ("sizeBytes", .num (n : Int)),
    ("warning", .str "Exceeded 50KB inline cap; wrote to file")]

/-- A status-endpoint observation that does not stop the poll loop: a 2xx
JSON body without a terminal status. -/
def nonTerminalResp : PollResp → Bool
  | .httpErr _ => false
  | .json v =>
    match jGetStr v "status" with
    | some s => !terminalStatus s
    | none => true

/-! ## Pass-through lemmas for the spooler steps -/

theorem spoolScreenshot_pass (w j : String) (r : RunResult)
    (h : singlePayload r.screenshot = none) :
    spoolScreenshot w j r = (r, []) := by
  unfold spoolScreenshot
  cases hs : r.screenshot with
  | none => rfl
  | some v =>
    rw [hs] at h
    unfold singlePayload at h
    cases v with
    | null => rfl
    | bool b =>
      simp only [notNull, if_true] at h
      cases hd : screenshotData (JVal.bool b) with
      | none => simp [hd]
      | some d =>
        rw [hd] at h
        by_cases hde : d = ""
        · simp [hd, hde]
        · simp [hde] at h
    | num n =>
      simp only [notNull, if_true] at h
      cases hd : screenshotData (JVal.num n) with
      | none => simp [hd]
      | some d =>
        rw [hd] at h
        by_cases hde : d = ""
        · simp [hd, hde]
        · simp [hde] at h
    | str s =>
      simp only [notNull, if_true] at h
      cases hd : screenshotData (JVal.str s) with
      | none => simp [hd]
      | some d =>
        rw [hd] at h
        by_cases hde : d = ""
        · simp [hd, hde]
        · simp [hde] at h
    | arr xs =>
      simp only [notNull, if_true] at h
      cases hd : screenshotData (JVal.arr xs) with
      | none => simp [hd]
      | some d =>
        rw [hd] at h
        by_cases hde : d = ""
        · simp [hd, hde]
        · simp [hde] at h
    | obj fs =>
      simp only [notNull, if_true] at h
      cases hd : screenshotData (JVal.obj fs) with
      | none => simp [hd]
      | some d =>
        rw [hd] at h
        by_cases hde : d = ""
        · simp [hd, hde]
        · simp [hde] at h

theorem spoolScreenshots_pass (w j : String) (r : RunResult)
    (h : isArrO r.screenshots = false) :
    spoolScreenshots w j r = (r, []) := by
  unfold spoolScreenshots
  unfold isArrO at h
  cases hs : r.screenshots with
  | none => rfl
  | some v =>
    rw [hs] at h
    cases v with
    | arr xs => simp at h
    | _ => rfl

theorem spoolRawPng_pass (w j : String) (r : RunResult)
    (h : r.rawPngBase64 = none) :
    spoolRawPng w j r = (r, []) := by
  unfold spoolRawPng
  rw [h]

theorem harIf_pass (r : RunResult) (A : RunResult × List FileWrite) (c : Bool)
    (h : c = true) : (if c = true then (r, []) else A) = (r, []) :=
  if_pos h

theorem consoleIf_pass (r : RunResult) (A : RunResult × List FileWrite) (n : Nat)
    (h : n ≤ INLINE_CAP) : (if n > INLINE_CAP then A else (r, [])) = (r, []) :=
  if_neg (by omega)

theorem spoolHar_pass (w : String) (hi : Bool) (j : String) (r : RunResult)
    (h : harKept hi r.har = true) :
    spoolHar w hi j r = (r, []) := by
  unfold spoolHar
  cases hs : r.har with
  | none => rfl
  | some v =>
    rw [hs] at h
    unfold harKept at h
    cases v with
    | null => rfl
    | bool b => exact harIf_pass r _ _ (by simpa [notNull] using h)
    | num n => exact harIf_pass r _ _ (by simpa [notNull] using h)
    | str s => exact harIf_pass r _ _ (by simpa [notNull] using h)
    | arr xs => exact harIf_pass r _ _ (by simpa [notNull] using h)
    | obj fs => exact harIf_pass r _ _ (by simpa [notNull] using h)

theorem spoolConsole_pass (w j : String) (r : RunResult)
    (h : consoleKept r.console = true) :
    spoolConsole w j r = (r, []) := by
  unfold spoolConsole
  cases hs : r.console with
  | none => rfl
  | some v =>
    rw [hs] at h
    unfold consoleKept at h
    cases v with
    | null => rfl
    | bool b => exact consoleIf_pass r _ _ (by simpa [notNull] using h)
    | num n => exact consoleIf_pass r _ _ (by simpa [notNull] using h)
    | str s => exact consoleIf_pass r _ _ (by simpa [notNull] using h)
    | arr xs => exact consoleIf_pass r _ _ (by simpa [notNull] using h)
    | obj fs => exact consoleIf_pass r _ _ (by simpa [notNull] using h)

/-! ## Shape lemmas: each step only rewrites its own fields -/

theorem spoolScreenshot_shape (w j : String) (r : RunResult) :
    ∃ x, (spoolScreenshot w j r).1 = { r with screenshot := x } := by
  unfold spoolScreenshot
  repeat' split
  all_goals dsimp only
  all_goals repeat' split
  all_goals exact ⟨_, rfl⟩

theorem spoolScreenshots_shape (w j : String) (r : RunResult) :
    ∃ x, (spoolScreenshots w j r).1 = { r with screenshots := x } := by
  unfold spoolScreenshots
  repeat' split
  all_goals dsimp only
  all_goals repeat' split
  all_goals exact ⟨_, rfl⟩

theorem spoolRawPng_shape (w j : String) (r : RunResult) :
    ∃ x y, (spoolRawPng w j r).1 = { r with screenshot := x, rawPngBase64 := y } := by
  unfold spoolRawPng
  repeat' split
  all_goals dsimp only
  all_goals repeat' split
  all_goals exact ⟨_, _, rfl⟩

theorem spoolHar_shape (w : String) (hi : Bool) (j : String) (r : RunResult) :
    ∃ x, (spoolHar w hi j r).1 = { r with har := x } := by
  unfold spoolHar
  repeat' split
  all_goals dsimp only
  all_goals repeat' split
  all_goals exact ⟨_, rfl⟩

theorem spoolConsole_shape (w j : String) (r : RunResult) :
    ∃ x, (spoolConsole w j r).1 = { r with console := x } := by
  unfold spoolConsole
  repeat' split
  all_goals dsimp only
  all_goals repeat' split
  all_goals exact ⟨_, rfl⟩

/-! ## Which subdirectory each step writes to -/

theorem spoolScreenshot_writes (w j : String) (r : RunResult) :
    ∀ fw ∈ (spoolScreenshot w j r).2, fw.subdir = "screenshots" := by
  unfold spoolScreenshot
  repeat' split
  all_goals dsimp only
  all_goals repeat' split
  all_goals simp [writeArtifactBinary]

theorem spoolScreenshotsGo_writes (w j : String) :
    ∀ (xs : List JVal) (i : Nat), ∀ fw ∈ (spoolScreenshotsGo w j xs i).2,
      fw.subdir = "screenshots" := by
  intro xs
  induction xs with
  | nil => intro i fw hfw; simp [spoolScreenshotsGo] at hfw
  | cons v rest ih =>
    intro i fw hfw
    unfold spoolScreenshotsGo at hfw
    cases hd : screenshotsItemData v with
    | some d =>
      rw [hd] at hfw
      simp only [List.mem_cons] at hfw
      rcases hfw with rfl | hfw
      · rfl
      · exact ih (i + 1) fw hfw
    | none =>
      rw [hd] at hfw
      exact ih (i + 1) fw hfw

theorem spoolScreenshots_writes (w j : String) (r : RunResult) :
    ∀ fw ∈ (spoolScreenshots w j r).2, fw.subdir = "screenshots" := by
  unfold spoolScreenshots
  intro fw hfw
  revert hfw
  split
  · exact fun hfw => spoolScreenshotsGo_writes w j _ 0 fw hfw
  · simp

theorem spoolRawPng_writes (w j : String) (r : RunResult) :
    ∀ fw ∈ (spoolRawPng w j r).2, fw.subdir = "screenshots" := by
  unfold spoolRawPng
  repeat' split
  all_goals dsimp only
  all_goals repeat' split
  all_goals simp [writeArtifactBinary]

theorem spoolHar_writes (w : String) (hi : Bool) (j : String) (r : RunResult) :
    ∀ fw ∈ (spoolHar w hi j r).2, fw.subdir = "har" := by
  unfold spoolHar
  repeat' split
  all_goals dsimp only
  all_goals repeat' split
  all_goals simp [writeArtifact]

theorem spoolConsole_writes (w j : String) (r : RunResult) :
    ∀ fw ∈ (spoolConsole w j r).2, fw.subdir = "console" := by
  unfold spoolConsole
  repeat' split
  all_goals dsimp only
  all_goals repeat' split
  all_goals simp [writeArtifact]

/-! ## Spec lemmas: the spooling branches in closed form -/

theorem spoolHar_spec (w : String) (hi : Bool) (j : String) (r : RunResult) (v : JVal)
    (h : r.har = some v) (hnn : notNull v = true) :
    spoolHar w hi j r =
      if hi && utf8Len (serialized v) ≤ INLINE_CAP then (r, [])
      else
        ({ r with har := some (if hi && utf8Len (serialized v) > INLINE_CAP then savedRefWarn (joinPath w "har" (j ++ ".har.json")) (utf8Len (serialized v)) else savedRefPlain (joinPath w "har" (j ++ ".har.json")) (utf8Len (serialized v))) },
         [writeArtifact w "har" (j ++ ".har.json") (serialized v)]) := by
  unfold spoolHar
  rw [h]
  cases v with
  | null => simp [notNull] at hnn
  | bool b => rfl
  | num n => rfl
  | str s => rfl
  | arr xs => rfl
  | obj fs => rfl

theorem spoolConsole_spec (w j : String) (r : RunResult) (v : JVal)
    (h : r.console = some v) (hnn : notNull v = true) :
    spoolConsole w j r =
      if utf8Len (serialized v) > INLINE_CAP then
        ({ r with console := some (savedRefPlain (joinPath w "console" (j ++ ".log")) (utf8Len (serialized v))) },
         [writeArtifact w "console" (j ++ ".log") (serialized v)])
      else (r, []) := by
  unfold spoolConsole
  rw [h]
  cases v with
  | null => simp [notNull] at hnn
  | bool b => rfl
  | num n => rfl
  | str s => rfl
  | arr xs => rfl
  | obj fs => rfl

theorem spoolScreenshot_spec (w j : String) (r : RunResult) (v : JVal) (d : String)
    (h : r.screenshot = some v) (hd : screenshotData v = some d) (hde : d ≠ "") :
    spoolScreenshot w j r =
      ({ r with screenshot := some (spooledRef (joinPath w "screenshots" (j ++ ".png")) (b64DecodedLen d) (objUrl v)) },
       [writeArtifactBinary w "screenshots" (j ++ ".png") d]) := by
  unfold spoolScreenshot
  rw [h]
  cases v with
  | null => simp [screenshotData] at hd
  | bool b => dsimp only; rw [hd]; exact if_neg hde
  | num n => dsimp only; rw [hd]; exact if_neg hde
  | str s => dsimp only; rw [hd]; exact if_neg hde
  | arr xs => dsimp only; rw [hd]; exact if_neg hde
  | obj fs => dsimp only; rw [hd]; exact if_neg hde

theorem spoolRawPng_spec (w j : String) (r : RunResult) (s : String)
    (h : r.rawPngBase64 = some s) :
    spoolRawPng w j r =
      ({ r with
          screenshot := some (savedRefPlain (joinPath w "screenshots" (j ++ ".png")) (b64DecodedLen s)),
          rawPngBase64 := none },
       [writeArtifactBinary w "screenshots" (j ++ ".png") s]) := by
  unfold spoolRawPng
  rw [h]
  rfl

theorem spoolScreenshotsGo_spec (w j : String) :
    ∀ (xs : List JVal) (i : Nat), ∀ y ∈ (spoolScreenshotsGo w j xs i).1,
      ∃ path n url, y = spooledRef path n url ∧
        ∃ fw ∈ (spoolScreenshotsGo w j xs i).2,
          fw.subdir = "screenshots" ∧ fw.path = path ∧ fw.bytes = n := by
  intro xs
  induction xs with
  | nil => intro i y hy; simp [spoolScreenshotsGo] at hy
  | cons v rest ih =>
    intro i y hy
    unfold spoolScreenshotsGo at hy ⊢
    cases hd : screenshotsItemData v with
    | some d =>
      rw [hd] at hy
      dsimp only at hy ⊢
      rcases List.mem_cons.mp hy with rfl | hy2
      · exact ⟨_, _, _, rfl, _, List.mem_cons_self _ _, rfl, rfl, rfl⟩
      · obtain ⟨path, n, url, hyeq, fw, hfw, hsub, hpath, hbytes⟩ := ih (i + 1) y hy2
        exact ⟨path, n, url, hyeq, fw, List.mem_cons_of_mem _ hfw, hsub, hpath, hbytes⟩
    | none =>
      rw [hd] at hy
      dsimp only at hy ⊢
      exact ih (i + 1) y hy

/-- Every kept field ⇒ the whole spooler is the identity with no writes. -/
theorem applySafetySpec_pass (ctx : SpoolCtx) (r : RunResult)
    (h1 : singlePayload r.screenshot = none)
    (h2 : isArrO r.screenshots = false)
    (h3 : r.rawPngBase64 = none)
    (h4 : harKept ctx.harInline r.har = true)
    (h5 : consoleKept r.console = true) :
    applySafetySpec ctx r = (r, []) := by
  unfold applySafetySpec
  simp only [spoolScreenshot_pass _ _ _ h1, spoolScreenshots_pass _ _ _ h2,
    spoolRawPng_pass _ _ _ h3, spoolHar_pass _ _ _ _ h4, spoolConsole_pass _ _ _ h5,
    List.append_nil, List.nil_append]

/-! ## Invariants of the spooled output (towards idempotence) -/

theorem screenshotData_spooledRef (p : String) (n : Nat) (url : Option JVal) :
    screenshotData (spooledRef p n url) = none := by
  cases url <;> rfl

theorem screenshotData_savedRefPlain (p : String) (n : Nat) :
    screenshotData (savedRefPlain p n) = none := rfl

theorem singlePayload_eq_some (o : Option JVal) (d : String)
    (h : singlePayload o = some d) :
    ∃ v, o = some v ∧ screenshotData v = some d ∧ d ≠ "" := by
  cases o with
  | none => simp [singlePayload] at h
  | some v =>
    refine ⟨v, rfl, ?_⟩
    have h2 : (if notNull v = true then
        (match screenshotData v with
         | some d0 => if d0 = "" then none else some d0
         | none => none)
      else none) = some d := h
    split at h2
    · cases hd : screenshotData v with
      | none => rw [hd] at h2; simp at h2
      | some d0 =>
        rw [hd] at h2
        dsimp only at h2
        by_cases hde : d0 = ""
        · rw [if_pos hde] at h2; simp at h2
        · rw [if_neg hde] at h2
          obtain rfl : d0 = d := by simpa using h2
          exact ⟨rfl, hde⟩
    · simp at h2

/-- The singular-screenshot step either passes through (payload `none`) or
replaces the field by the saved reference, in closed form. -/
theorem spoolScreenshot_cases (w j : String) (r : RunResult) :
    (singlePayload r.screenshot = none ∧ spoolScreenshot w j r = (r, [])) ∨
    ∃ v d, r.screenshot = some v ∧ screenshotData v = some d ∧ d ≠ "" ∧
      spoolScreenshot w j r =
        ({ r with screenshot := some (spooledRef (joinPath w "screenshots" (j ++ ".png")) (b64DecodedLen d) (objUrl v)) },
         [writeArtifactBinary w "screenshots" (j ++ ".png") d]) := by
  cases hsp : singlePayload r.screenshot with
  | none => exact Or.inl ⟨rfl, spoolScreenshot_pass w j r hsp⟩
  | some d =>
    obtain ⟨v, hv, hd, hde⟩ := singlePayload_eq_some _ _ hsp
    exact Or.inr ⟨v, d, hv, hd, hde, spoolScreenshot_spec w j r v d hv hd hde⟩

theorem spoolScreenshot_payload (w j : String) (r : RunResult) :
    singlePayload (spoolScreenshot w j r).1.screenshot = none := by
  rcases spoolScreenshot_cases w j r with ⟨hsp, heq⟩ | ⟨v, d, hv, hd, hde, heq⟩
  · rw [heq]; exact hsp
  · rw [heq]
    simp [singlePayload, notNull, screenshotData_spooledRef]

theorem spoolRawPng_none (w j : String) (r : RunResult) :
    (spoolRawPng w j r).1.rawPngBase64 = none := by
  unfold spoolRawPng
  cases hr : r.rawPngBase64 with
  | some s => rfl
  | none => exact hr

/-- After one application of the spooler the raw png buffer is gone. -/
theorem applySafetySpec_rawPng (ctx : SpoolCtx) (x : RunResult) :
    (applySafetySpec ctx x).1.rawPngBase64 = none := by
  unfold applySafetySpec
  dsimp only
  obtain ⟨c4, e4⟩ := spoolHar_shape ctx.workspace ctx.harInline (spoolJobId x)
    (spoolRawPng ctx.workspace (spoolJobId x)
      (spoolScreenshots ctx.workspace (spoolJobId x)
        (spoolScreenshot ctx.workspace (spoolJobId x) x).1).1).1
  obtain ⟨c5, e5⟩ := spoolConsole_shape ctx.workspace (spoolJobId x)
    (spoolHar ctx.workspace ctx.harInline (spoolJobId x)
      (spoolRawPng ctx.workspace (spoolJobId x)
        (spoolScreenshots ctx.workspace (spoolJobId x)
          (spoolScreenshot ctx.workspace (spoolJobId x) x).1).1).1).1
  rw [e5, e4]
  exact spoolRawPng_none _ _ _

/-- After one application of the spooler the singular screenshot field
carries no base64 payload. -/
theorem applySafetySpec_payload (ctx : SpoolCtx) (x : RunResult) :
    singlePayload (applySafetySpec ctx x).1.screenshot = none := by
  unfold applySafetySpec
  dsimp only
  obtain ⟨c4, e4⟩ := spoolHar_shape ctx.workspace ctx.harInline (spoolJobId x)
    (spoolRawPng ctx.workspace (spoolJobId x)
      (spoolScreenshots ctx.workspace (spoolJobId x)
        (spoolScreenshot ctx.workspace (spoolJobId x) x).1).1).1
  obtain ⟨c5, e5⟩ := spoolConsole_shape ctx.workspace (spoolJobId x)
    (spoolHar ctx.workspace ctx.harInline (spoolJobId x)
      (spoolRawPng ctx.workspace (spoolJobId x)
        (spoolScreenshots ctx.workspace (spoolJobId x)
          (spoolScreenshot ctx.workspace (spoolJobId x) x).1).1).1).1
  rw [e5, e4]
  cases hr : (spoolScreenshots ctx.workspace (spoolJobId x)
      (spoolScreenshot ctx.workspace (spoolJobId x) x).1).1.rawPngBase64 with
  | some s =>
    rw [spoolRawPng_spec _ _ _ s hr]
    simp [singlePayload, notNull, screenshotData_savedRefPlain]
  | none =>
    rw [spoolRawPng_pass _ _ _ hr]
    obtain ⟨c2, e2⟩ := spoolScreenshots_shape ctx.workspace (spoolJobId x)
      (spoolScreenshot ctx.workspace (spoolJobId x) x).1
    rw [e2]
    exact spoolScreenshot_payload _ _ _

/-! ## The spooler's action on har and console, lifted to `applySafetySpec` -/

/-- The first three steps only touch screenshot fields: the spooler is the
har and console steps run on an intermediate result `rpre` agreeing with
`r` on har and console, preceded by screenshot-subdirectory writes. -/
theorem applySafetySpec_decomp (ctx : SpoolCtx) (r : RunResult) :
    ∃ (rpre : RunResult) (wpre : List FileWrite),
      rpre.har = r.har ∧ rpre.console = r.console ∧
      (∀ fw ∈ wpre, fw.subdir = "screenshots") ∧
      (applySafetySpec ctx r).1 =
        (spoolConsole ctx.workspace (spoolJobId r)
          (spoolHar ctx.workspace ctx.harInline (spoolJobId r) rpre).1).1 ∧
      (applySafetySpec ctx r).2 =
        wpre ++ (spoolHar ctx.workspace ctx.harInline (spoolJobId r) rpre).2 ++
          (spoolConsole ctx.workspace (spoolJobId r)
            (spoolHar ctx.workspace ctx.harInline (spoolJobId r) rpre).1).2 := by
  obtain ⟨x1, e1⟩ := spoolScreenshot_shape ctx.workspace (spoolJobId r) r
  obtain ⟨x2, e2⟩ := spoolScreenshots_shape ctx.workspace (spoolJobId r)
    (spoolScreenshot ctx.workspace (spoolJobId r) r).1
  obtain ⟨x3, y3, e3⟩ := spoolRawPng_shape ctx.workspace (spoolJobId r)
    (spoolScreenshots ctx.workspace (spoolJobId r)
      (spoolScreenshot ctx.workspace (spoolJobId r) r).1).1
  refine ⟨(spoolRawPng ctx.workspace (spoolJobId r)
      (spoolScreenshots ctx.workspace (spoolJobId r)
        (spoolScreenshot ctx.workspace (spoolJobId r) r).1).1).1,
    (spoolScreenshot ctx.workspace (spoolJobId r) r).2 ++
      ((spoolScreenshots ctx.workspace (spoolJobId r)
        (spoolScreenshot ctx.workspace (spoolJobId r) r).1).2 ++
      (spoolRawPng ctx.workspace (spoolJobId r)
        (spoolScreenshots ctx.workspace (spoolJobId r)
          (spoolScreenshot ctx.workspace (spoolJobId r) r).1).1).2), ?_, ?_, ?_, rfl, ?_⟩
  · rw [e3, e2, e1]
  · rw [e3, e2, e1]
  · intro fw hfw
    simp only [List.mem_append] at hfw
    rcases hfw with hfw | hfw | hfw
    · exact spoolScreenshot_writes _ _ _ fw hfw
    · exact spoolScreenshots_writes _ _ _ fw hfw
    · exact spoolRawPng_writes _ _ _ fw hfw
  · unfold applySafetySpec
    dsimp only
    simp [List.append_assoc]

theorem applySafetySpec_har_kept (ctx : SpoolCtx) (r : RunResult) (v : JVal)
    (hhar : r.har = some v) (hnn : notNull v = true)
    (hcond : (ctx.harInline && decide (utf8Len (serialized v) ≤ INLINE_CAP)) = true) :
    (applySafetySpec ctx r).1.har = some v ∧
    ∀ fw ∈ (applySafetySpec ctx r).2, fw.subdir ≠ "har" := by
  obtain ⟨rpre, wpre, hh, hc, hw, h1, h2⟩ := applySafetySpec_decomp ctx r
  have hsp := spoolHar_spec ctx.workspace ctx.harInline (spoolJobId r) rpre v
    (hh.trans hhar) hnn
  rw [if_pos hcond] at hsp
  obtain ⟨c5, e5⟩ := spoolConsole_shape ctx.workspace (spoolJobId r)
    (spoolHar ctx.workspace ctx.harInline (spoolJobId r) rpre).1
  constructor
  · rw [h1, e5, hsp]
    exact hh.trans hhar
  · intro fw hfw
    rw [h2, hsp] at hfw
    simp only [List.mem_append] at hfw
    rcases hfw with (hfw | hfw) | hfw
    · rw [hw fw hfw]; decide
    · simp at hfw
    · rw [spoolConsole_writes _ _ _ fw hfw]; decide

theorem applySafetySpec_har_spooled (ctx : SpoolCtx) (r : RunResult) (v : JVal)
    (hhar : r.har = some v) (hnn : notNull v = true)
    (hcond : (ctx.harInline && decide (utf8Len (serialized v) ≤ INLINE_CAP)) = false) :
    (applySafetySpec ctx r).1.har =
      some (if ctx.harInline && decide (utf8Len (serialized v) > INLINE_CAP) then savedRefWarn (joinPath ctx.workspace "har" (spoolJobId r ++ ".har.json")) (utf8Len (serialized v)) else savedRefPlain (joinPath ctx.workspace "har" (spoolJobId r ++ ".har.json")) (utf8Len (serialized v))) ∧
    writeArtifact ctx.workspace "har" (spoolJobId r ++ ".har.json") (serialized v) ∈
      (applySafetySpec ctx r).2 := by
  obtain ⟨rpre, wpre, hh, hc, hw, h1, h2⟩ := applySafetySpec_decomp ctx r
  have hsp := spoolHar_spec ctx.workspace ctx.harInline (spoolJobId r) rpre v
    (hh.trans hhar) hnn
  rw [if_neg (by simp [hcond])] at hsp
  obtain ⟨c5, e5⟩ := spoolConsole_shape ctx.workspace (spoolJobId r)
    (spoolHar ctx.workspace ctx.harInline (spoolJobId r) rpre).1
  constructor
  · rw [h1, e5, hsp]
  · rw [h2, hsp]
    simp

theorem applySafetySpec_console_kept (ctx : SpoolCtx) (r : RunResult) (v : JVal)
    (hcons : r.console = some v) (hnn : notNull v = true)
    (hcap : utf8Len (serialized v) ≤ INLINE_CAP) :
    (applySafetySpec ctx r).1.console = some v ∧
    ∀ fw ∈ (applySafetySpec ctx r).2, fw.subdir ≠ "console" := by
  obtain ⟨rpre, wpre, hh, hc, hw, h1, h2⟩ := applySafetySpec_decomp ctx r
  obtain ⟨c4, e4⟩ := spoolHar_shape ctx.workspace ctx.harInline (spoolJobId r) rpre
  have hc4 : (spoolHar ctx.workspace ctx.harInline (spoolJobId r) rpre).1.console = some v := by
    rw [e4]; exact hc.trans hcons
  have hsp := spoolConsole_spec ctx.workspace (spoolJobId r)
    (spoolHar ctx.workspace ctx.harInline (spoolJobId r) rpre).1 v hc4 hnn
  rw [if_neg (by omega)] at hsp
  constructor
  · rw [h1, hsp]
    exact hc4
  · intro fw hfw
    rw [h2, hsp] at hfw
    simp only [List.mem_append] at hfw
    rcases hfw with (hfw | hfw) | hfw
    · rw [hw fw hfw]; decide
    · rw [spoolHar_writes _ _ _ _ fw hfw]; decide
    · simp at hfw

theorem applySafetySpec_console_spooled (ctx : SpoolCtx) (r : RunResult) (v : JVal)
    (hcons : r.console = some v) (hnn : notNull v = true)
    (hcap : utf8Len (serialized v) > INLINE_CAP) :
    (applySafetySpec ctx r).1.console =
      some (savedRefPlain (joinPath ctx.workspace "console" (spoolJobId r ++ ".log")) (utf8Len (serialized v))) ∧
    writeArtifact ctx.workspace "console" (spoolJobId r ++ ".log") (serialized v) ∈
      (applySafetySpec ctx r).2 := by
  obtain ⟨rpre, wpre, hh, hc, hw, h1, h2⟩ := applySafetySpec_decomp ctx r
  obtain ⟨c4, e4⟩ := spoolHar_shape ctx.workspace ctx.harInline (spoolJobId r) rpre
  have hc4 : (spoolHar ctx.workspace ctx.harInline (spoolJobId r) rpre).1.console = some v := by
    rw [e4]; exact hc.trans hcons
  have hsp := spoolConsole_spec ctx.workspace (spoolJobId r)
    (spoolHar ctx.workspace ctx.harInline (spoolJobId r) rpre).1 v hc4 hnn
  rw [if_pos hcap] at hsp
  constructor
  · rw [h1, hsp]
  · rw [h2, hsp]
    simp

/-! ## Field-preservation one-liners -/

theorem spoolScreenshot_rawPng (w j : String) (r : RunResult) :
    (spoolScreenshot w j r).1.rawPngBase64 = r.rawPngBase64 := by
  obtain ⟨c, e⟩ := spoolScreenshot_shape w j r; rw [e]

theorem spoolScreenshot_screenshots (w j : String) (r : RunResult) :
    (spoolScreenshot w j r).1.screenshots = r.screenshots := by
  obtain ⟨c, e⟩ := spoolScreenshot_shape w j r; rw [e]

theorem spoolScreenshots_screenshot (w j : String) (r : RunResult) :
    (spoolScreenshots w j r).1.screenshot = r.screenshot := by
  obtain ⟨c, e⟩ := spoolScreenshots_shape w j r; rw [e]

theorem spoolScreenshots_rawPng (w j : String) (r : RunResult) :
    (spoolScreenshots w j r).1.rawPngBase64 = r.rawPngBase64 := by
  obtain ⟨c, e⟩ := spoolScreenshots_shape w j r; rw [e]

theorem spoolRawPng_screenshots (w j : String) (r : RunResult) :
    (spoolRawPng w j r).1.screenshots = r.screenshots := by
  obtain ⟨c, c2, e⟩ := spoolRawPng_shape w j r; rw [e]

theorem spoolHar_screenshot (w : String) (hi : Bool) (j : String) (r : RunResult) :
    (spoolHar w hi j r).1.screenshot = r.screenshot := by
  obtain ⟨c, e⟩ := spoolHar_shape w hi j r; rw [e]

theorem spoolHar_screenshots (w : String) (hi : Bool) (j : String) (r : RunResult) :
    (spoolHar w hi j r).1.screenshots = r.screenshots := by
  obtain ⟨c, e⟩ := spoolHar_shape w hi j r; rw [e]

theorem spoolHar_rawPngF (w : String) (hi : Bool) (j : String) (r : RunResult) :
    (spoolHar w hi j r).1.rawPngBase64 = r.rawPngBase64 := by
  obtain ⟨c, e⟩ := spoolHar_shape w hi j r; rw [e]

theorem spoolConsole_screenshot (w j : String) (r : RunResult) :
    (spoolConsole w j r).1.screenshot = r.screenshot := by
  obtain ⟨c, e⟩ := spoolConsole_shape w j r; rw [e]

theorem spoolConsole_screenshots (w j : String) (r : RunResult) :
    (spoolConsole w j r).1.screenshots = r.screenshots := by
  obtain ⟨c, e⟩ := spoolConsole_shape w j r; rw [e]

/-- The `screenshots` spooling branch in closed form. -/
theorem spoolScreenshots_spec (w j : String) (r : RunResult) (xs : List JVal)
    (h : r.screenshots = some (.arr xs)) :
    spoolScreenshots w j r =
      ({ r with screenshots := some (.arr (spoolScreenshotsGo w j xs 0).1) },
       (spoolScreenshotsGo w j xs 0).2) := by
  unfold spoolScreenshots
  rw [h]

/-- Transport of the singular screenshot field through the remaining steps
when no raw png buffer is pending. -/
theorem applySafetySpec_screenshot_chain (ctx : SpoolCtx) (r : RunResult)
    (hraw : r.rawPngBase64 = none) :
    (applySafetySpec ctx r).1.screenshot =
      (spoolScreenshot ctx.workspace (spoolJobId r) r).1.screenshot := by
  unfold applySafetySpec
  dsimp only
  rw [spoolConsole_screenshot, spoolHar_screenshot,
    spoolRawPng_pass _ _ _ (by rw [spoolScreenshots_rawPng, spoolScreenshot_rawPng]; exact hraw)]
  dsimp only
  rw [spoolScreenshots_screenshot]

/-- Transport of the screenshots array through the last three steps. -/
theorem applySafetySpec_screenshots_chain (ctx : SpoolCtx) (r : RunResult) :
    (applySafetySpec ctx r).1.screenshots =
      (spoolScreenshots ctx.workspace (spoolJobId r)
        (spoolScreenshot ctx.workspace (spoolJobId r) r).1).1.screenshots := by
  unfold applySafetySpec
  dsimp only
  rw [spoolConsole_screenshots, spoolHar_screenshots, spoolRawPng_screenshots]

/-- The writes list decomposes with the screenshot steps first. -/
theorem applySafetySpec_writes_decomp (ctx : SpoolCtx) (r : RunResult) :
    ∃ wsuf, (applySafetySpec ctx r).2 =
      (spoolScreenshot ctx.workspace (spoolJobId r) r).2 ++
        ((spoolScreenshots ctx.workspace (spoolJobId r)
          (spoolScreenshot ctx.workspace (spoolJobId r) r).1).2 ++ wsuf) := by
  refine ⟨(spoolRawPng ctx.workspace (spoolJobId r)
      (spoolScreenshots ctx.workspace (spoolJobId r)
        (spoolScreenshot ctx.workspace (spoolJobId r) r).1).1).2 ++
    ((spoolHar ctx.workspace ctx.harInline (spoolJobId r)
      (spoolRawPng ctx.workspace (spoolJobId r)
        (spoolScreenshots ctx.workspace (spoolJobId r)
          (spoolScreenshot ctx.workspace (spoolJobId r) r).1).1).1).2 ++
    (spoolConsole ctx.workspace (spoolJobId r)
      (spoolHar ctx.workspace ctx.harInline (spoolJobId r)
        (spoolRawPng ctx.workspace (spoolJobId r)
          (spoolScreenshots ctx.workspace (spoolJobId r)
            (spoolScreenshot ctx.workspace (spoolJobId r) r).1).1).1).1).2), ?_⟩
  unfold applySafetySpec
  dsimp only
  simp [List.append_assoc]

/-! ## Membership of each step's writes in the spooler's write log -/

theorem applySafetySpec_mem1 (ctx : SpoolCtx) (r : RunResult) (fw : FileWrite)
    (h : fw ∈ (spoolScreenshot ctx.workspace (spoolJobId r) r).2) :
    fw ∈ (applySafetySpec ctx r).2 := by
  unfold applySafetySpec
  dsimp only
  simp only [List.mem_append]
  tauto

theorem applySafetySpec_mem2 (ctx : SpoolCtx) (r : RunResult) (fw : FileWrite)
    (h : fw ∈ (spoolScreenshots ctx.workspace (spoolJobId r)
      (spoolScreenshot ctx.workspace (spoolJobId r) r).1).2) :
    fw ∈ (applySafetySpec ctx r).2 := by
  unfold applySafetySpec
  dsimp only
  simp only [List.mem_append]
  tauto

theorem applySafetySpec_mem3 (ctx : SpoolCtx) (r : RunResult) (fw : FileWrite)
    (h : fw ∈ (spoolRawPng ctx.workspace (spoolJobId r)
      (spoolScreenshots ctx.workspace (spoolJobId r)
        (spoolScreenshot ctx.workspace (spoolJobId r) r).1).1).2) :
    fw ∈ (applySafetySpec ctx r).2 := by
  unfold applySafetySpec
  dsimp only
  simp only [List.mem_append]
  tauto

/-! ## The claims about the artifact safety spooler -/

/-- C1: for a run result with a non-null har, after the spooler runs:
if inline was explicitly requested and the UTF-8-serialized size is at most
`50*1024` bytes, the har field is the original content, nothing is written
to the har directory and there is no warning; if the serialized size
exceeds `50*1024` bytes — whatever the inline flag — the field becomes the
`{saved, sizeBytes}` reference (written to the har directory), carrying a
`warning` field exactly when inline was explicitly requested. -/
theorem har_cap_policy (ctx : SpoolCtx) (r : RunResult) (v : JVal)
    (hhar : r.har = some v) (hnn : notNull v = true) :
    (ctx.harInline = true → utf8Len (serialized v) ≤ INLINE_CAP →
       (applySafetySpec ctx r).1.har = some v ∧
       ∀ fw ∈ (applySafetySpec ctx r).2, fw.subdir ≠ "har") ∧
    (utf8Len (serialized v) > INLINE_CAP →
       (applySafetySpec ctx r).1.har =
         some (if ctx.harInline then savedRefWarn (joinPath ctx.workspace "har" (spoolJobId r ++ ".har.json")) (utf8Len (serialized v)) else savedRefPlain (joinPath ctx.workspace "har" (spoolJobId r ++ ".har.json")) (utf8Len (serialized v))) ∧
       writeArtifact ctx.workspace "har" (spoolJobId r ++ ".har.json") (serialized v) ∈
         (applySafetySpec ctx r).2) := by
  constructor
  · intro hinl hcap
    exact applySafetySpec_har_kept ctx r v hhar hnn (by rw [hinl]; simpa using hcap)
  · intro hcap
    have hs := applySafetySpec_har_spooled ctx r v hhar hnn
      (by simp [Nat.not_le.mpr hcap])
    rwa [show (ctx.harInline && decide (utf8Len (serialized v) > INLINE_CAP)) = ctx.harInline
      from by simp [decide_eq_true hcap]] at hs

/-- Witness for `har_cap_policy` at a concrete small har with inline
requested. -/
theorem har_cap_policy_witness :
    ({ har := some (JVal.str "abc") } : RunResult).har = some (JVal.str "abc") ∧
    notNull (JVal.str "abc") = true ∧
    (((SpoolCtx.mk "w" true).harInline = true → utf8Len (serialized (JVal.str "abc")) ≤ INLINE_CAP →
       (applySafetySpec ⟨"w", true⟩ { har := some (JVal.str "abc") }).1.har = some (JVal.str "abc") ∧
       ∀ fw ∈ (applySafetySpec ⟨"w", true⟩ ({ har := some (JVal.str "abc") } : RunResult)).2, fw.subdir ≠ "har") ∧
    (utf8Len (serialized (JVal.str "abc")) > INLINE_CAP →
       (applySafetySpec ⟨"w", true⟩ ({ har := some (JVal.str "abc") } : RunResult)).1.har =
         some (if (SpoolCtx.mk "w" true).harInline then savedRefWarn (joinPath "w" "har" (spoolJobId { har := some (JVal.str "abc") } ++ ".har.json")) (utf8Len (serialized (JVal.str "abc"))) else savedRefPlain (joinPath "w" "har" (spoolJobId { har := some (JVal.str "abc") } ++ ".har.json")) (utf8Len (serialized (JVal.str "abc")))) ∧
       writeArtifact "w" "har" (spoolJobId ({ har := some (JVal.str "abc") } : RunResult) ++ ".har.json") (serialized (JVal.str "abc")) ∈
         (applySafetySpec ⟨"w", true⟩ ({ har := some (JVal.str "abc") } : RunResult)).2)) :=
  ⟨rfl, rfl, har_cap_policy ⟨"w", true⟩ { har := some (JVal.str "abc") } (JVal.str "abc") rfl rfl⟩

/-- C2: screenshot artifacts are always spooled.  A non-empty base64
payload in the singular `screenshot` field (string or object form) is
replaced by the `{saved, sizeBytes, url?}` reference whose `sizeBytes` is
the decoded byte count of the file write recorded for it; every element of
the rebuilt `screenshots` array is such a reference backed by a recorded
write of the same path and byte count; a raw png body is deleted and
replaced by a saved reference likewise. -/
theorem screenshot_spooling (ctx : SpoolCtx) (r : RunResult) :
    (∀ v d, r.screenshot = some v → screenshotData v = some d → d ≠ "" →
       r.rawPngBase64 = none →
       (applySafetySpec ctx r).1.screenshot =
         some (spooledRef (joinPath ctx.workspace "screenshots" (spoolJobId r ++ ".png")) (b64DecodedLen d) (objUrl v)) ∧
       writeArtifactBinary ctx.workspace "screenshots" (spoolJobId r ++ ".png") d ∈
         (applySafetySpec ctx r).2) ∧
    (∀ xs, r.screenshots = some (.arr xs) →
       ∃ ys, (applySafetySpec ctx r).1.screenshots = some (.arr ys) ∧
         ∀ y ∈ ys, ∃ path n url, y = spooledRef path n url ∧
           ∃ fw ∈ (applySafetySpec ctx r).2,
             fw.subdir = "screenshots" ∧ fw.path = path ∧ fw.bytes = n) ∧
    (∀ s, r.rawPngBase64 = some s →
       (applySafetySpec ctx r).1.rawPngBase64 = none ∧
       (applySafetySpec ctx r).1.screenshot =
         some (savedRefPlain (joinPath ctx.workspace "screenshots" (spoolJobId r ++ ".png")) (b64DecodedLen s)) ∧
       writeArtifactBinary ctx.workspace "screenshots" (spoolJobId r ++ ".png") s ∈
         (applySafetySpec ctx r).2) := by
  refine ⟨?_, ?_, ?_⟩
  · intro v d hv hd hde hraw
    have hchain := applySafetySpec_screenshot_chain ctx r hraw
    have hs1 := spoolScreenshot_spec ctx.workspace (spoolJobId r) r v d hv hd hde
    constructor
    · rw [hchain, hs1]
    · exact applySafetySpec_mem1 ctx r _ (by rw [hs1]; exact List.mem_singleton_self _)
  · intro xs hxs
    have hchain := applySafetySpec_screenshots_chain ctx r
    have h1s : (spoolScreenshot ctx.workspace (spoolJobId r) r).1.screenshots = some (.arr xs) := by
      rw [spoolScreenshot_screenshots]; exact hxs
    have hs2 := spoolScreenshots_spec ctx.workspace (spoolJobId r) _ xs h1s
    refine ⟨(spoolScreenshotsGo ctx.workspace (spoolJobId r) xs 0).1, ?_, ?_⟩
    · rw [hchain, hs2]
    · intro y hy
      obtain ⟨path, n, url, hyeq, fw, hfw, hsub, hpath, hbytes⟩ :=
        spoolScreenshotsGo_spec ctx.workspace (spoolJobId r) xs 0 y hy
      exact ⟨path, n, url, hyeq, fw,
        applySafetySpec_mem2 ctx r fw (by rw [hs2]; exact hfw), hsub, hpath, hbytes⟩
  · intro s hraws
    have hr2 : (spoolScreenshots ctx.workspace (spoolJobId r)
        (spoolScreenshot ctx.workspace (spoolJobId r) r).1).1.rawPngBase64 = some s := by
      rw [spoolScreenshots_rawPng, spoolScreenshot_rawPng]; exact hraws
    have hs3 := spoolRawPng_spec ctx.workspace (spoolJobId r) _ s hr2
    refine ⟨applySafetySpec_rawPng ctx r, ?_, ?_⟩
    · unfold applySafetySpec
      dsimp only
      rw [spoolConsole_screenshot, spoolHar_screenshot, hs3]
    · exact applySafetySpec_mem3 ctx r _ (by rw [hs3]; exact List.mem_singleton_self _)

/-- Witness for `screenshot_spooling` at a concrete result carrying a
data-URL screenshot string. -/
theorem screenshot_spooling_witness :
    (({ screenshot := some (JVal.str "data:image/png;base64,QUJD") } : RunResult).screenshot =
      some (JVal.str "data:image/png;base64,QUJD")) ∧
    screenshotData (JVal.str "data:image/png;base64,QUJD") = some "QUJD" ∧
    ("QUJD" ≠ "") ∧
    (applySafetySpec ⟨"w", false⟩
        ({ screenshot := some (JVal.str "data:image/png;base64,QUJD") } : RunResult)).1.screenshot =
      some (spooledRef "w/riddle/screenshots/unknown.png" 3 none) :=
  ⟨rfl, (by decide), (by decide),
    ((screenshot_spooling ⟨"w", false⟩
        { screenshot := some (JVal.str "data:image/png;base64,QUJD") }).1
      (JVal.str "data:image/png;base64,QUJD") "QUJD" rfl (by decide) (by decide) rfl).1⟩

/-- C3 counterexample: the spooler is not idempotent.  One spooled result
with a screenshots array and an unrequested-inline har changes under a
second application: the spooled screenshots array is emptied and the har
reference is itself re-spooled. -/
theorem spool_not_idempotent :
    (applySafetySpec ⟨"ws", false⟩
       (applySafetySpec ⟨"ws", false⟩
         { screenshots := some (.arr [JVal.str "QUJD"]), har := some (JVal.str "h") }).1).1 ≠
    (applySafetySpec ⟨"ws", false⟩
       { screenshots := some (.arr [JVal.str "QUJD"]), har := some (JVal.str "h") }).1 := by
  intro h
  have h2 := congrArg RunResult.screenshots h
  rw [show (applySafetySpec ⟨"ws", false⟩
      (applySafetySpec ⟨"ws", false⟩
        { screenshots := some (.arr [JVal.str "QUJD"]), har := some (JVal.str "h") }).1).1.screenshots =
      some (.arr []) from rfl] at h2
  rw [show (applySafetySpec ⟨"ws", false⟩
      { screenshots := some (.arr [JVal.str "QUJD"]), har := some (JVal.str "h") }).1.screenshots =
      some (.arr [spooledRef "ws/riddle/screenshots/unknown-0.png" 3 none]) from rfl] at h2
  simp [spooledRef] at h2

/-- C3 (amended): the spooler passes an already-spooled result through
unchanged — hence is idempotent — provided the spooled result's
screenshots field is not an array (e.g. absent), its har is kept (absent,
or inline was requested and the reference fits the cap) and its console
reference serializes within the cap.  (The singular screenshot and the raw
png buffer need no condition: one application always leaves them
payload-free.) -/
theorem spool_idempotent_kept (ctx : SpoolCtx) (x : RunResult)
    (hss : isArrO (applySafetySpec ctx x).1.screenshots = false)
    (hhar : harKept ctx.harInline (applySafetySpec ctx x).1.har = true)
    (hcon : consoleKept (applySafetySpec ctx x).1.console = true) :
    applySafetySpec ctx (applySafetySpec ctx x).1 = ((applySafetySpec ctx x).1, []) :=
  applySafetySpec_pass ctx _ (applySafetySpec_payload ctx x) hss
    (applySafetySpec_rawPng ctx x) hhar hcon

/-- Witness for `spool_idempotent_kept`: a result with a screenshot
payload, a small har with inline requested, and a small console. -/
theorem spool_idempotent_kept_witness :
    isArrO (applySafetySpec ⟨"w", true⟩
      ({ screenshot := some (JVal.str "QQ=="), har := some (JVal.str "h"),
         console := some (JVal.str "c") } : RunResult)).1.screenshots = false ∧
    harKept true (applySafetySpec ⟨"w", true⟩
      ({ screenshot := some (JVal.str "QQ=="), har := some (JVal.str "h"),
         console := some (JVal.str "c") } : RunResult)).1.har = true ∧
    consoleKept (applySafetySpec ⟨"w", true⟩
      ({ screenshot := some (JVal.str "QQ=="), har := some (JVal.str "h"),
         console := some (JVal.str "c") } : RunResult)).1.console = true ∧
    applySafetySpec ⟨"w", true⟩
        (applySafetySpec ⟨"w", true⟩
          ({ screenshot := some (JVal.str "QQ=="), har := some (JVal.str "h"),
             console := some (JVal.str "c") } : RunResult)).1 =
      ((applySafetySpec ⟨"w", true⟩
          ({ screenshot := some (JVal.str "QQ=="), har := some (JVal.str "h"),
             console := some (JVal.str "c") } : RunResult)).1, []) :=
  ⟨rfl, rfl, rfl,
    spool_idempotent_kept ⟨"w", true⟩
      { screenshot := some (JVal.str "QQ=="), har := some (JVal.str "h"),
        console := some (JVal.str "c") } rfl rfl rfl⟩

/-- C4 counterexample: a 3-byte console log with no inline request of any
kind stays inline and nothing is spooled, contradicting "console artifacts
are inlined only if the caller explicitly requested inlining … otherwise
they are spooled". -/
theorem console_inlined_without_request :
    (applySafetySpec ⟨"ws", false⟩ ({ console := some (JVal.str "hi") } : RunResult)).1.console =
      some (JVal.str "hi") ∧
    (applySafetySpec ⟨"ws", false⟩ ({ console := some (JVal.str "hi") } : RunResult)).2 = [] :=
  ⟨rfl, rfl⟩

/-- C4 (amended): har artifacts are inlined only if explicitly requested
and within the 50 KiB cap, otherwise spooled with a warning exactly when
the explicit request was defeated by the cap; console artifacts are
inlined whenever within the cap — no request needed — and above the cap
are spooled to a plain `{saved, sizeBytes}` reference with no warning. -/
theorem inline_cap_policy (ctx : SpoolCtx) (r : RunResult) :
    (∀ v, r.har = some v → notNull v = true →
       ((ctx.harInline && decide (utf8Len (serialized v) ≤ INLINE_CAP)) = true →
          (applySafetySpec ctx r).1.har = some v ∧
          ∀ fw ∈ (applySafetySpec ctx r).2, fw.subdir ≠ "har") ∧
       ((ctx.harInline && decide (utf8Len (serialized v) ≤ INLINE_CAP)) = false →
          (applySafetySpec ctx r).1.har =
            some (if ctx.harInline && decide (utf8Len (serialized v) > INLINE_CAP) then savedRefWarn (joinPath ctx.workspace "har" (spoolJobId r ++ ".har.json")) (utf8Len (serialized v)) else savedRefPlain (joinPath ctx.workspace "har" (spoolJobId r ++ ".har.json")) (utf8Len (serialized v))) ∧
          writeArtifact ctx.workspace "har" (spoolJobId r ++ ".har.json") (serialized v) ∈
            (applySafetySpec ctx r).2)) ∧
    (∀ v, r.console = some v → notNull v = true →
       (utf8Len (serialized v) ≤ INLINE_CAP →
          (applySafetySpec ctx r).1.console = some v ∧
          ∀ fw ∈ (applySafetySpec ctx r).2, fw.subdir ≠ "console") ∧
       (utf8Len (serialized v) > INLINE_CAP →
          (applySafetySpec ctx r).1.console =
            some (savedRefPlain (joinPath ctx.workspace "console" (spoolJobId r ++ ".log")) (utf8Len (serialized v))) ∧
          writeArtifact ctx.workspace "console" (spoolJobId r ++ ".log") (serialized v) ∈
            (applySafetySpec ctx r).2)) := by
  constructor
  · intro v hv hnn
    exact ⟨fun hc => applySafetySpec_har_kept ctx r v hv hnn hc,
      fun hc => applySafetySpec_har_spooled ctx r v hv hnn hc⟩
  · intro v hv hnn
    exact ⟨fun hc => applySafetySpec_console_kept ctx r v hv hnn hc,
      fun hc => applySafetySpec_console_spooled ctx r v hv hnn hc⟩

/-- Witness for `inline_cap_policy`: a concrete result with a small har
(inline not requested, so spooled without warning) and a small console
(kept inline). -/
theorem inline_cap_policy_witness :
    (({ har := some (JVal.str "h"), console := some (JVal.str "c") } : RunResult).har =
      some (JVal.str "h")) ∧
    notNull (JVal.str "h") = true ∧
    (((false : Bool) && decide (utf8Len (serialized (JVal.str "h")) ≤ INLINE_CAP)) = false) ∧
    utf8Len (serialized (JVal.str "c")) ≤ INLINE_CAP ∧
    ((applySafetySpec ⟨"w", false⟩
        ({ har := some (JVal.str "h"), console := some (JVal.str "c") } : RunResult)).1.har =
      some (savedRefPlain "w/riddle/har/unknown.har.json" 1)) ∧
    ((applySafetySpec ⟨"w", false⟩
        ({ har := some (JVal.str "h"), console := some (JVal.str "c") } : RunResult)).1.console =
      some (JVal.str "c")) := by
  refine ⟨rfl, rfl, rfl, (by decide), ?_, ?_⟩
  · have h := (((inline_cap_policy ⟨"w", false⟩
        { har := some (JVal.str "h"), console := some (JVal.str "c") }).1
      (JVal.str "h") rfl rfl).2 rfl).1
    simpa using h
  · exact (((inline_cap_policy ⟨"w", false⟩
        { har := some (JVal.str "h"), console := some (JVal.str "c") }).2
      (JVal.str "c") rfl rfl).1 (by decide)).1

/-! ## Mode detection and the domain guard -/

/-- C6: the detected mode is the first truthy field in the priority order
url, urls, steps, script; in particular a payload with exactly one truthy
mode field detects that field, and with none of them the mode is
undefined. -/
theorem detectMode_priority (p : Payload) :
    (truthyO p.url = true → detectMode p = some "url") ∧
    (truthyO p.url = false → truthyO p.urls = true → detectMode p = some "urls") ∧
    (truthyO p.url = false → truthyO p.urls = false → truthyO p.steps = true →
       detectMode p = some "steps") ∧
    (truthyO p.url = false → truthyO p.urls = false → truthyO p.steps = false →
       truthyO p.script = true → detectMode p = some "script") ∧
    (truthyO p.url = false → truthyO p.urls = false → truthyO p.steps = false →
       truthyO p.script = false → detectMode p = none) :=
  ⟨fun h1 => by simp [detectMode, h1],
   fun h1 h2 => by simp [detectMode, h1, h2],
   fun h1 h2 h3 => by simp [detectMode, h1, h2, h3],
   fun h1 h2 h3 h4 => by simp [detectMode, h1, h2, h3, h4],
   fun h1 h2 h3 h4 => by simp [detectMode, h1, h2, h3, h4]⟩

/-- Witness for `detectMode_priority`: a single-url payload detects url,
also when a script field is present (priority). -/
theorem detectMode_priority_witness :
    truthyO ({ url := some (.str "https://example.com"),
               script := some (.str "x") } : Payload).url = true ∧
    detectMode { url := some (.str "https://example.com"),
                 script := some (.str "x") } = some "url" :=
  ⟨rfl, (detectMode_priority _).1 rfl⟩

/-- C9: the base-url guard succeeds exactly on the https scheme with the
single allowed host, and a failing guard aborts `runWithDefaults` with the
thrown error before any network effect (no post, no poll, no fetch, no
spool, no writes). -/
theorem assertAllowedBaseUrl_spec (u : UrlParts) (inp : RunInputs)
    (hb : inp.baseUrl = u) (hk : inp.hasApiKey = true) :
    ((assertAllowedBaseUrl u = .ok ()) ↔
      (u.protocol = "https:" ∧ u.hostname = "api.riddledc.com")) ∧
    (∀ e, assertAllowedBaseUrl u = .error e →
      runWithDefaults inp = (.error e, ({} : Effects))) := by
  constructor
  · constructor
    · intro h
      unfold assertAllowedBaseUrl at h
      by_cases h1 : u.protocol = "https:"
      · by_cases h2 : u.hostname = "api.riddledc.com"
        · exact ⟨h1, h2⟩
        · rw [if_neg (by simp [h1]), if_pos h2] at h
          simp at h
      · rw [if_pos h1] at h
        simp at h
    · rintro ⟨h1, h2⟩
      simp [assertAllowedBaseUrl, h1, h2]
  · intro e he
    unfold runWithDefaults
    rw [hk, hb, he]
    rfl

/-- Witness for `assertAllowedBaseUrl_spec` at a non-https base url. -/
theorem assertAllowedBaseUrl_spec_witness :
    (({ baseUrl := ⟨"http:", "api.riddledc.com"⟩,
        response := { status := 200 } } : RunInputs).baseUrl =
      (⟨"http:", "api.riddledc.com"⟩ : UrlParts)) ∧
    ({ baseUrl := ⟨"http:", "api.riddledc.com"⟩,
       response := { status := 200 } } : RunInputs).hasApiKey = true ∧
    (((assertAllowedBaseUrl ⟨"http:", "api.riddledc.com"⟩ = .ok ()) ↔
        ("http:" = "https:" ∧ "api.riddledc.com" = "api.riddledc.com")) ∧
      (∀ e, assertAllowedBaseUrl ⟨"http:", "api.riddledc.com"⟩ = .error e →
        runWithDefaults { baseUrl := ⟨"http:", "api.riddledc.com"⟩,
                          response := { status := 200 } } = (.error e, ({} : Effects)))) :=
  ⟨rfl, rfl, assertAllowedBaseUrl_spec ⟨"http:", "api.riddledc.com"⟩ _ rfl rfl⟩

/-! ## The poll loop -/

/-- A trace whose every in-bound iteration observes a non-terminal 2xx
response drives the loop to its synthesized `poll_timeout` object. -/
theorem pollJobStatus_timeout (jobId : String) (m : Nat) (trace : List (Nat × PollResp))
    (h : ∀ p ∈ trace, p.1 < m → nonTerminalResp p.2 = true) :
    pollJobStatus jobId m trace = pollTimeoutObj jobId m := by
  induction trace with
  | nil => rfl
  | cons p rest ih =>
    obtain ⟨t, resp⟩ := p
    unfold pollJobStatus
    by_cases ht : t < m
    · rw [if_pos ht]
      have hnt := h (t, resp) (List.mem_cons_self _ _) ht
      cases resp with
      | httpErr c => simp [nonTerminalResp] at hnt
      | json v =>
        unfold nonTerminalResp at hnt
        dsimp only at hnt ⊢
        cases hs : jGetStr v "status" with
        | some s =>
          rw [hs] at hnt
          dsimp only at hnt ⊢
          rw [if_neg (by simp_all)]
          exact ih (fun q hq hqt => h q (List.mem_cons_of_mem _ hq) hqt)
        | none =>
          dsimp only
          exact ih (fun q hq hqt => h q (List.mem_cons_of_mem _ hq) hqt)
    · rw [if_neg ht]

/-- Evaluating `jobIdOf408` on a body with a truthy job id. -/
theorem jobIdOf408_some (body jv : JVal) (h1 : jLookup body "job_id" = some jv)
    (h2 : truthy jv = true) : jobIdOf408 (some body) = some jv := by
  unfold jobIdOf408
  simp [h1, h2]

/-- C5: with a 408 submission carrying a job id and no fire-and-forget
request, a poll trace that never reaches a terminal status within
`timeout_sec*1000 + 30000` milliseconds makes the run resolve to
`ok: false` with the pseudo-status `poll_timeout` — a string distinct from
the server-reported `completed_timeout` — with no artifact fetch and no
spooling. -/
theorem poll_timeout_spec (inp : RunInputs) (body jv : JVal)
    (hk : inp.hasApiKey = true)
    (hb : inp.baseUrl = ⟨"https:", "api.riddledc.com"⟩)
    (hst : inp.response.status = 408)
    (hbody : inp.response.bodyJson = some body)
    (hjid : jLookup body "job_id" = some jv)
    (htr : truthy jv = true)
    (hasync : inp.returnAsync = false)
    (hpoll : ∀ p ∈ inp.pollTrace, p.1 < pollMax inp.payload → nonTerminalResp p.2 = true) :
    ∃ res, runWithDefaults inp = (.ok res, { posted := true, polled := true }) ∧
      res.ok = JVal.bool false ∧
      res.status = some (JVal.str "poll_timeout") ∧
      "poll_timeout" ≠ "completed_timeout" := by
  unfold runWithDefaults
  rw [hk, hb, show assertAllowedBaseUrl ⟨"https:", "api.riddledc.com"⟩ = .ok () from rfl]
  dsimp only
  rw [hst, if_pos rfl, hbody, jobIdOf408_some body jv hjid htr]
  dsimp only
  rw [hasync, if_neg (by simp)]
  rw [pollJobStatus_timeout (jsToString jv) (pollMax inp.payload) inp.pollTrace hpoll]
  unfold afterPoll
  rw [show pollFailStatus (pollTimeoutObj (jsToString jv) (pollMax inp.payload)) =
    some "poll_timeout" from rfl]
  exact ⟨_, rfl, rfl, rfl, by decide⟩

/-- Witness for `poll_timeout_spec`: a concrete 408 submission with
default timeout (bound 90000 ms) and a trace still `running` at 0 ms and
observed past the bound at 90000 ms. -/
theorem poll_timeout_spec_witness :
    (∀ p ∈ ([(0, PollResp.json (.obj [("status", JVal.str "running")])),
             (90000, PollResp.json (.obj [("status", JVal.str "running")]))] :
        List (Nat × PollResp)),
      p.1 < pollMax ({} : Payload) → nonTerminalResp p.2 = true) ∧
    ∃ res, runWithDefaults
        { response := { status := 408, bodyJson := some (.obj [("job_id", JVal.str "job_1")]) },
          pollTrace := [(0, PollResp.json (.obj [("status", JVal.str "running")])),
            (90000, PollResp.json (.obj [("status", JVal.str "running")]))] } =
        (.ok res, { posted := true, polled := true }) ∧
      res.ok = JVal.bool false ∧
      res.status = some (JVal.str "poll_timeout") ∧
      "poll_timeout" ≠ "completed_timeout" :=
  ⟨by decide,
    poll_timeout_spec
      { response := { status := 408, bodyJson := some (.obj [("job_id", JVal.str "job_1")]) },
        pollTrace := [(0, PollResp.json (.obj [("status", JVal.str "running")])),
          (90000, PollResp.json (.obj [("status", JVal.str "running")]))] }
      (.obj [("job_id", JVal.str "job_1")]) (JVal.str "job_1")
      rfl rfl rfl rfl rfl rfl rfl (by decide)⟩

/-- `a ?? b` keeps a non-nullish truthy value. -/
theorem nullishAlt_truthy (v : JVal) (b : Option JVal) (h : truthy v = true) :
    nullishAlt (some v) b = some v := by
  cases v with
  | null => simp [truthy] at h
  | bool x => rfl
  | num x => rfl
  | str x => rfl
  | arr x => rfl
  | obj x => rfl

/-- C7: a polled 408 job that resolves to the terminal status `failed`
with a truthy reported error yields `ok: false`, status `failed` and that
error, with no artifact fetch and no spooling. -/
theorem failed_job_spec (inp : RunInputs) (body jv js ev : JVal)
    (hk : inp.hasApiKey = true)
    (hb : inp.baseUrl = ⟨"https:", "api.riddledc.com"⟩)
    (hst : inp.response.status = 408)
    (hbody : inp.response.bodyJson = some body)
    (hjid : jLookup body "job_id" = some jv)
    (htr : truthy jv = true)
    (hasync : inp.returnAsync = false)
    (hpoll : pollJobStatus (jsToString jv) (pollMax inp.payload) inp.pollTrace = js)
    (hsts : jGetStr js "status" = some "failed")
    (herr : jLookup js "error" = some ev)
    (hev : truthy ev = true) :
    ∃ res, runWithDefaults inp = (.ok res, { posted := true, polled := true }) ∧
      res.ok = JVal.bool false ∧
      res.status = some (JVal.str "failed") ∧
      res.error = some ev := by
  unfold runWithDefaults
  rw [hk, hb, show assertAllowedBaseUrl ⟨"https:", "api.riddledc.com"⟩ = .ok () from rfl]
  dsimp only
  rw [hst, if_pos rfl, hbody, jobIdOf408_some body jv hjid htr]
  dsimp only
  rw [hasync, if_neg (by simp)]
  rw [hpoll]
  unfold afterPoll
  rw [show pollFailStatus js = some "failed" from by unfold pollFailStatus; rw [hsts]; rfl]
  dsimp only
  rw [show pollFailError js "failed" = ev from by
    unfold pollFailError; rw [herr]; dsimp only; rw [if_pos hev]]
  exact ⟨_, rfl, rfl, rfl, rfl⟩

/-- Witness for `failed_job_spec`: a job that fails with error `boom` on
the first poll. -/
theorem failed_job_spec_witness :
    jGetStr (.obj [("status", JVal.str "failed"), ("error", JVal.str "boom")]) "status" =
      some "failed" ∧
    ∃ res, runWithDefaults
        { response := { status := 408, bodyJson := some (.obj [("job_id", JVal.str "job_1")]) },
          pollTrace := [(0, PollResp.json
            (.obj [("status", JVal.str "failed"), ("error", JVal.str "boom")]))] } =
        (.ok res, { posted := true, polled := true }) ∧
      res.ok = JVal.bool false ∧
      res.status = some (JVal.str "failed") ∧
      res.error = some (JVal.str "boom") :=
  ⟨rfl,
    failed_job_spec
      { response := { status := 408, bodyJson := some (.obj [("job_id", JVal.str "job_1")]) },
        pollTrace := [(0, PollResp.json
          (.obj [("status", JVal.str "failed"), ("error", JVal.str "boom")]))] }
      (.obj [("job_id", JVal.str "job_1")]) (JVal.str "job_1")
      (.obj [("status", JVal.str "failed"), ("error", JVal.str "boom")]) (JVal.str "boom")
      rfl rfl rfl rfl rfl rfl rfl rfl rfl rfl rfl⟩

/-- C8 counterexample: in fire-and-forget async mode, a 202 response
carrying a job id but no `status_url` is not returned as `submitted`; the
flow falls through to the sync-JSON path and even runs the spooler,
refuting the claim for 202 responses without a `status_url`. -/
theorem async_202_without_status_url :
    (runWithDefaults
      { returnAsync := true,
        response := { status := 202, contentType := some "application/json",
                      bodyJson := some (.obj [("job_id", JVal.str "j")]) } }).2.spooled = true ∧
    ∃ res, (runWithDefaults
      { returnAsync := true,
        response := { status := 202, contentType := some "application/json",
                      bodyJson := some (.obj [("job_id", JVal.str "j")]) } }).1 = .ok res ∧
      res.status = none :=
  ⟨rfl, _, rfl, rfl⟩

/-- C8 (amended): in fire-and-forget async mode, a 408 response carrying a
job id, or a 202 response carrying a job id *and a status_url*, returns
immediately with that job id and status `submitted`, with no polling, no
artifact fetch and no spooling. -/
theorem async_submitted_spec (inp : RunInputs)
    (hk : inp.hasApiKey = true)
    (hb : inp.baseUrl = ⟨"https:", "api.riddledc.com"⟩)
    (hasync : inp.returnAsync = true) :
    (∀ body jv, inp.response.status = 408 → inp.response.bodyJson = some body →
       jLookup body "job_id" = some jv → truthy jv = true →
       ∃ res, runWithDefaults inp = (.ok res, { posted := true }) ∧
         res.job_id = some jv ∧ res.status = some (JVal.str "submitted")) ∧
    (∀ json jv, inp.response.status = 202 →
       isImageCT inp.response.contentType = false →
       inp.response.bodyJson = some json →
       jLookup json "job_id" = some jv → truthy jv = true →
       truthyO (jLookup json "status_url") = true →
       ∃ res, runWithDefaults inp = (.ok res, { posted := true }) ∧
         res.job_id = some jv ∧ res.status = some (JVal.str "submitted")) := by
  constructor
  · intro body jv hst hbody hjid htr
    unfold runWithDefaults
    rw [hk, hb, show assertAllowedBaseUrl ⟨"https:", "api.riddledc.com"⟩ = .ok () from rfl]
    dsimp only
    rw [hst, if_pos rfl, hbody, jobIdOf408_some body jv hjid htr]
    dsimp only
    rw [hasync, if_pos rfl]
    exact ⟨_, rfl, rfl, rfl⟩
  · intro json jv hst himg hbody hjid htr hsu
    unfold runWithDefaults
    rw [hk, hb, show assertAllowedBaseUrl ⟨"https:", "api.riddledc.com"⟩ = .ok () from rfl]
    dsimp only
    rw [hst, if_neg (by decide), if_neg (by decide), if_neg (by decide), himg,
      if_neg (by simp), hbody]
    dsimp only
    rw [hjid, nullishAlt_truthy jv _ htr]
    rw [show truthyO (some jv) = true from htr]
    rw [hsu]
    rw [if_pos (by decide)]
    rw [hasync, if_pos rfl]
    exact ⟨_, rfl, rfl, rfl⟩

/-- Witness for `async_submitted_spec`: a 202 acceptance with job id and
status url in async mode. -/
theorem async_submitted_spec_witness :
    ({ returnAsync := true,
       response := { status := 202, bodyJson := some (.obj [("job_id", JVal.str "j7"), ("status_url", JVal.str "/v1/jobs/j7")]) } } : RunInputs).returnAsync = true ∧
    ∃ res, runWithDefaults
        { returnAsync := true,
          response := { status := 202, bodyJson := some (.obj [("job_id", JVal.str "j7"), ("status_url", JVal.str "/v1/jobs/j7")]) } } =
        (.ok res, { posted := true }) ∧
      res.job_id = some (JVal.str "j7") ∧ res.status = some (JVal.str "submitted") :=
  ⟨rfl,
    (async_submitted_spec
      { returnAsync := true,
        response := { status := 202, bodyJson := some (.obj [("job_id", JVal.str "j7"), ("status_url", JVal.str "/v1/jobs/j7")]) } }
      rfl rfl rfl).2
      (.obj [("job_id", JVal.str "j7"), ("status_url", JVal.str "/v1/jobs/j7")])
      (JVal.str "j7") rfl rfl rfl rfl rfl rfl⟩

/-- C10: a 408 submission whose body yields no truthy job id resolves to a
structured `ok: false` result with an explanatory error — no exception, no
polling, no artifact fetch, no spooling. -/
theorem no_jobid_408_spec (inp : RunInputs)
    (hk : inp.hasApiKey = true)
    (hb : inp.baseUrl = ⟨"https:", "api.riddledc.com"⟩)
    (hst : inp.response.status = 408)
    (hjid : jobIdOf408 inp.response.bodyJson = none) :
    ∃ res, runWithDefaults inp = (.ok res, { posted := true }) ∧
      res.ok = JVal.bool false ∧
      res.error = some (JVal.str "Sync poll timed out but no job_id in 408 response") := by
  unfold runWithDefaults
  rw [hk, hb, show assertAllowedBaseUrl ⟨"https:", "api.riddledc.com"⟩ = .ok () from rfl]
  dsimp only
  rw [hst, if_pos rfl, hjid]
  exact ⟨_, rfl, rfl, rfl⟩

/-- Witness for `no_jobid_408_spec`: a 408 whose body is not JSON. -/
theorem no_jobid_408_spec_witness :
    jobIdOf408 (none : Option JVal) = none ∧
    ∃ res, runWithDefaults { response := { status := 408 } } =
        (.ok res, { posted := true }) ∧
      res.ok = JVal.bool false ∧
      res.error = some (JVal.str "Sync poll timed out but no job_id in 408 response") :=
  ⟨rfl, no_jobid_408_spec { response := { status := 408 } } rfl rfl rfl rfl⟩

end Riddle
